import Mathlib

/-!
# Verification of the azure-switchboard selection/accounting/failover core

Shallow embedding of the `azure_switchboard` package:
* `Model` — per-(deployment, model) counters and cooldown clock
  (`azure_switchboard/model.py`, modelled from the spec since the file is
  not part of the provided sources);
* `DeploymentState` and its `create` operation
  (`azure_switchboard/deployment.py`);
* `_AsyncStreamWrapper` chunk consumption (`deployment.py`);
* `Switchboard.select_deployment`, the tenacity failover policy of
  `Switchboard.create`, `reset_usage` (`azure_switchboard/switchboard.py`);
* `_LRUDict` (`azure_switchboard/switchboard.py`);
* the older `Client.util` (`azure_switchboard/client.py`).

Time values and the random tie-breaker are rationals; timestamps are passed
explicitly where Python reads `time.time()`.  Randomness (the pluggable
selector / `random.sample`) is passed in as an explicit choice function.
Python exceptions are values of `PyErr`; a raising call returns `Except`.
-/

instance instDecEqExcept {ε α : Type} [DecidableEq ε] [DecidableEq α] :
    DecidableEq (Except ε α) := fun x y =>
  match x, y with
  | .ok a, .ok b =>
    if h : a = b then .isTrue (by rw [h]) else .isFalse (by simp [h])
  | .error a, .error b =>
    if h : a = b then .isTrue (by rw [h]) else .isFalse (by simp [h])
  | .ok _, .error _ => .isFalse (by simp)
  | .error _, .ok _ => .isFalse (by simp)

/-- Python exceptions that the embedded code can raise, by class.
`switchboardError` is `azure_switchboard.exceptions.SwitchboardError`;
`runtimeError` is the builtin `RuntimeError`; `typeError` the builtin
`TypeError` (raised by `len(None)`). -/
inductive PyErr where
  | switchboardError (msg : String)
  | runtimeError (msg : String)
  | typeError
deriving DecidableEq, Repr

/-- Embeds `isinstance(e, SwitchboardError)` — the predicate the tenacity policy
`retry_if_not_exception_type(SwitchboardError)` tests. -/
def PyErr.isSwitchboardError : PyErr → Bool
  | .switchboardError _ => true
  | _ => false

/-- Exceptions an upstream call can raise, by class: `openai.RateLimitError`
(HTTP 429), some other 4xx client error, or any other failure (timeout,
5xx, connection error).  Only `rateLimitError` is matched by the dedicated
`except RateLimitError` clause in `DeploymentState.create`. -/
inductive UpstreamExc where
  | rateLimitError
  | clientFault
  | transientFault
deriving DecidableEq, Repr

/-- What one upstream chat-completions call does: return a completion whose
`usage.total_tokens` is the given value (`none` when no usage record is
attached), or raise. -/
inductive UpstreamOutcome where
  | ok (usage : Option Nat)
  | raise (e : UpstreamExc)
deriving DecidableEq, Repr

/-- Modelled from the spec: `azure_switchboard/model.py` is not among the
provided sources; this is the per-(deployment, model) `Model` state of
spec §3/§4.1: counters `tpm_usage`/`rpm_usage`, limits, and the cooldown
clock.  Limits of 0 mean unlimited. -/
structure Model where
  name : String
  tpm_limit : Nat := 0
  rpm_limit : Nat := 0
  tpm_usage : Nat := 0
  rpm_usage : Nat := 0
  cooldown_until : ℤ := 0
  cooldown_period : ℤ := 60
deriving DecidableEq, Repr

/-- Modelled from the spec: `healthy()` returns `now ≥ cooldown_until`. -/
def Model.is_healthy (m : Model) (now : ℤ) : Bool :=
  m.cooldown_until ≤ now

/-- Modelled from the spec: saturating-add of `n` tokens; `n` may be
negative (preflight reconciliation) and the counter clamps at 0. -/
def Model.spend_tokens (m : Model) (n : ℤ) : Model :=
  { m with tpm_usage := ((m.tpm_usage : ℤ) + n).toNat }

/-- Modelled from the spec: increment the request counter. -/
def Model.spend_request (m : Model) : Model :=
  { m with rpm_usage := m.rpm_usage + 1 }

/-- Modelled from the spec: `mark_down(duration?)` sets
`cooldown_until = now + (duration or cooldown_period)`. -/
def Model.mark_down (m : Model) (now : ℤ) (duration : Option ℤ := none) : Model :=
  { m with cooldown_until := now + duration.getD m.cooldown_period }

/-- Modelled from the spec: `mark_up()` clears the cooldown. -/
def Model.mark_up (m : Model) : Model :=
  { m with cooldown_until := 0 }

/-- Modelled from the spec: `reset_usage()` zeros both counters and leaves
`cooldown_until` alone. -/
def Model.reset_usage (m : Model) : Model :=
  { m with tpm_usage := 0, rpm_usage := 0 }

/-- The value found under the `"content"` key of a message dict:
either a string or Python `None` (as in assistant tool-call messages). -/
inductive ContentVal where
  | str (s : String)
  | pyNone
deriving DecidableEq, Repr

/-- One entry of the `messages` list.  `content = none` means the
`"content"` key is absent, so `m.get("content", "")` yields `""`. -/
structure Message where
  content : Option ContentVal := none
deriving DecidableEq, Repr

/-- Embeds `len(m.get("content", ""))`: length of the string, `0` for a missing
key, and a `TypeError` when the key holds `None` (`len(None)`). -/
def contentLen : Option ContentVal → Except PyErr Nat
  | none => .ok 0
  | some (.str s) => .ok s.length
  | some .pyNone => .error .typeError

/-- Embeds `sum(len(m.get("content", "")) for m in messages)`: the generator
evaluates `len` left to right, so the first `None` content raises. -/
def sumContentLens : List Message → Except PyErr Nat
  | [] => .ok 0
  | m :: t => do
    let n ← contentLen m.content
    let r ← sumContentLens t
    pure (n + r)

/-- Embeds `DeploymentState._estimate_token_usage`: sum of content lengths of the
messages, integer-divided by 4 (`deployment.py`). -/
def estimate_token_usage (msgs : List Message) : Except PyErr Nat := do
  let t ← sumContentLens msgs
  return t / 4

/-- Runtime state of one deployment: its name, the configured default
timeout, and the per-model states (`DeploymentState` in `deployment.py`;
the dict `self.models` is an association list keyed by `Model.name`). -/
structure DeploymentState where
  name : String
  timeout : ℚ := 600
  models : List Model := []
deriving DecidableEq, Repr

/-- The `self.models[name]` lookup (`None` when the model is not configured). -/
def DeploymentState.model? (d : DeploymentState) (name : String) : Option Model :=
  d.models.find? (fun m => m.name = name)

/-- In-place mutation of `self.models[name]` (Python mutates the shared
`Model` object; here we rebuild the list). -/
def DeploymentState.updateModel (d : DeploymentState) (name : String)
    (f : Model → Model) : DeploymentState :=
  { d with models := d.models.map (fun m => if m.name = name then f m else m) }

/-- The value `DeploymentState.create` returns in the non-streaming case:
the upstream completion, of which we track the `usage.total_tokens`
field. -/
structure Completion where
  usage : Option Nat
deriving DecidableEq, Repr

/-- Non-streaming `DeploymentState.create` (`deployment.py`): check the
model is configured, compute the preflight estimate, spend it plus one
request, call upstream, reconcile usage on success, and translate
failures (`RateLimitError → SwitchboardError` after `mark_down`; any
other exception → `RuntimeError` after `mark_down`). -/
def DeploymentState.create (d : DeploymentState) (model : String)
    (msgs : List Message) (outcome : UpstreamOutcome) (now : ℤ) :
    DeploymentState × Except PyErr Completion :=
  if (d.model? model).isNone then
    (d, .error (.switchboardError (model ++ " not configured for deployment")))
  else
    match estimate_token_usage msgs with
    | .error e => (d, .error e)
    | .ok pf =>
      let d := d.updateModel model
        (fun m => (m.spend_tokens (pf : ℤ)).spend_request)
      match outcome with
      | .ok usage =>
        match usage with
        | some t =>
          (d.updateModel model (fun m => m.spend_tokens ((t : ℤ) - (pf : ℤ))),
           .ok ⟨some t⟩)
        | none => (d, .ok ⟨none⟩)
      | .raise e =>
        let d := d.updateModel model (fun m => m.mark_down now)
        match e with
        | .rateLimitError =>
          (d, .error (.switchboardError
            "Rate limit exceeded in deployment chat completion"))
        | _ => (d, .error (.runtimeError "Error in deployment chat completion"))

/-- One chunk of a completion stream: an opaque payload plus the optional
`usage` record (`usage.total_tokens` when present). -/
structure Chunk where
  payload : String
  usage : Option Nat := none
deriving DecidableEq, Repr

/-- Streaming `DeploymentState.create` (`deployment.py`): same preflight
path as the non-streaming case; on upstream success it returns an
`_AsyncStreamWrapper` carrying the preflight estimate as `offset`
(represented here by that offset), and the upstream exception branches
are shared with the non-streaming case. -/
def DeploymentState.createStream (d : DeploymentState) (model : String)
    (msgs : List Message) (outcome : UpstreamOutcome) (now : ℤ) :
    DeploymentState × Except PyErr Nat :=
  if (d.model? model).isNone then
    (d, .error (.switchboardError (model ++ " not configured for deployment")))
  else
    match estimate_token_usage msgs with
    | .error e => (d, .error e)
    | .ok pf =>
      let d := d.updateModel model
        (fun m => (m.spend_tokens (pf : ℤ)).spend_request)
      match outcome with
      | .ok _ => (d, .ok pf)
      | .raise e =>
        let d := d.updateModel model (fun m => m.mark_down now)
        match e with
        | .rateLimitError =>
          (d, .error (.switchboardError
            "Rate limit exceeded in deployment chat completion"))
        | _ => (d, .error (.runtimeError "Error in deployment chat completion"))

/-- Embeds `_AsyncStreamWrapper.__aiter__` consuming the whole upstream stream
without a mid-stream exception: each chunk is forwarded verbatim, and any
chunk carrying a usage record reconciles `total_tokens - offset` into the
model's token counter (`deployment.py`). -/
def consumeStream (d : DeploymentState) (model : String) (offset : Nat) :
    List Chunk → DeploymentState × List Chunk
  | [] => (d, [])
  | c :: rest =>
    let d' := match c.usage with
      | some t => d.updateModel model
          (fun m => m.spend_tokens ((t : ℤ) - (offset : ℤ)))
      | none => d
    let (d'', out) := consumeStream d' model offset rest
    (d'', c :: out)

/-! ## The `_LRUDict` session map (`switchboard.py`)

The ordered dict is a list of key/value pairs, oldest first; values are
deployment names (Python stores references to `DeploymentState` objects,
which are uniquely identified by name). -/

/-- Embeds `_LRUDict.__setitem__`: insert or update the key and move it to the
(recent) end, then pop entries from the (oldest) front while the size
exceeds `max_size`.  The `while` loop is rendered as a `drop` of the
excess length. -/
def lruPut (max_size : Nat) (l : List (String × String)) (k v : String) :
    List (String × String) :=
  let m := l.filter (fun p => p.1 ≠ k) ++ [(k, v)]
  m.drop (m.length - max_size)

/-- Embeds `_LRUDict.__getitem__` on a present key: return the value and move the
key to the recent end.  An absent key leaves the dict unchanged
(`__contains__` is checked before any access in `select_deployment`). -/
def lruGet (l : List (String × String)) (k : String) :
    Option String × List (String × String) :=
  match l.find? (fun p => p.1 = k) with
  | none => (none, l)
  | some p => (some p.2, l.filter (fun q => q.1 ≠ k) ++ [(k, p.2)])

/-- Embeds `key in self.sessions` (`__contains__`, no LRU touch). -/
def lruContains (l : List (String × String)) (k : String) : Bool :=
  (l.find? (fun p => p.1 = k)).isSome

/-- The `Switchboard` state: the deployments dict (insertion-ordered,
keyed by deployment name) and the `_LRUDict` of sessions mapping a
session id to the pinned deployment (by name). -/
structure Switchboard where
  deployments : List DeploymentState := []
  sessions : List (String × String) := []
  max_sessions : Nat := 1024
deriving DecidableEq, Repr

/-- The `self.deployments[name]` lookup (dereference of a stored reference). -/
def Switchboard.depByName (sb : Switchboard) (n : String) :
    Option DeploymentState :=
  sb.deployments.find? (fun d => d.name = n)

/-- Embeds `DeploymentState.is_healthy` (`deployment.py`): healthy iff the model
is configured on the deployment and its cooldown has expired. -/
def DeploymentState.is_healthy (d : DeploymentState) (model : String)
    (now : ℤ) : Bool :=
  match d.model? model with
  | some m => m.is_healthy now
  | none => false

/-- The fallthrough of `select_deployment` (`switchboard.py`): filter the
healthy deployments, raise when none, pick the sole one or call the
selector, and pin the session (`self.sessions[session_id] = deployment`
when a session id was given). -/
def Switchboard.selectEligible (sb : Switchboard)
    (sel : String → List DeploymentState → DeploymentState) (now : ℤ)
    (model : String) (sid : Option String) :
    Except PyErr (String × Switchboard) :=
  let eligible := sb.deployments.filter (fun d => d.is_healthy model now)
  match eligible with
  | [] => .error (.switchboardError
      ("No eligible deployments available for " ++ model))
  | e :: es =>
    let chosen := if es = [] then e else sel model (e :: es)
    let sb' : Switchboard :=
      match sid with
      | some s =>
        if s = "" then sb
        else { sb with
               sessions := lruPut sb.max_sessions sb.sessions s chosen.name }
      | none => sb
    .ok (chosen.name, sb')

/-- Embeds `Switchboard.select_deployment` (`switchboard.py`).  The pluggable
selector is passed as `sel` (the default `two_random_choices` is embedded
separately with its random sample made explicit); `now` stands for the
`time.time()` reads inside the health checks.  Returns the chosen
deployment's name together with the updated switchboard (the session map
is touched by the lookup and overwritten by the pinning write). -/
def Switchboard.select_deployment (sb : Switchboard)
    (sel : String → List DeploymentState → DeploymentState) (now : ℤ)
    (model : String) (sid : Option String) :
    Except PyErr (String × Switchboard) :=
  -- session-based routing: `if session_id and session_id in self.sessions`
  -- (`session_id` is truthy iff provided and nonempty); on a hit,
  -- `deployment = self.sessions[session_id]` touches the LRU order, so the
  -- switchboard carried into every later step has the touched sessions.
  match sid with
  | none => sb.selectEligible sel now model sid
  | some s =>
    if s = "" then sb.selectEligible sel now model sid
    else
      match (lruGet sb.sessions s).1 with
      | none => sb.selectEligible sel now model sid
      | some pinned =>
        match ({ sb with
            sessions := (lruGet sb.sessions s).2 } : Switchboard).depByName
            pinned with
        | some dep =>
          if dep.is_healthy model now then
            .ok (pinned, { sb with sessions := (lruGet sb.sessions s).2 })
          else
            ({ sb with
              sessions := (lruGet sb.sessions s).2 } : Switchboard).selectEligible
              sel now model sid
        | none =>
          ({ sb with
            sessions := (lruGet sb.sessions s).2 } : Switchboard).selectEligible
            sel now model sid

/-- Write back the mutated deployment object (Python mutates it through
the shared reference held in `self.deployments`). -/
def Switchboard.putDep (sb : Switchboard) (d : DeploymentState) :
    Switchboard :=
  { sb with deployments :=
      sb.deployments.map (fun x => if x.name = d.name then d else x) }

/-- One attempt of `Switchboard.create`: select a deployment, then run
`deployment.create` on it.  `outcome` gives the upstream behaviour of
each deployment (by name) for this attempt. -/
def Switchboard.createOnce (sb : Switchboard)
    (sel : String → List DeploymentState → DeploymentState) (now : ℤ)
    (model : String) (sid : Option String) (msgs : List Message)
    (outcome : String → UpstreamOutcome) :
    Switchboard × Except PyErr Completion :=
  match sb.select_deployment sel now model sid with
  | .error e => (sb, .error e)
  | .ok (dn, sb₁) =>
    match sb₁.depByName dn with
    | none => (sb₁, .error (.runtimeError "missing deployment"))
    | some d =>
      let (d', r) := d.create model msgs (outcome dn) now
      (sb₁.putDep d', r)

/-- Embeds `Switchboard.create` under `DEFAULT_FAILOVER_POLICY`
(`switchboard.py`): tenacity `AsyncRetrying` with `stop_after_attempt(2)`,
`retry=retry_if_not_exception_type(SwitchboardError)` and `reraise=True`.
The first attempt runs; if it raises a `SwitchboardError` the error is
re-raised at once; any other exception triggers exactly one further
attempt, whose result (or error) is final.  `outcome` gives each
deployment's upstream behaviour per attempt number. -/
def Switchboard.create (sb : Switchboard)
    (sel : String → List DeploymentState → DeploymentState) (now : ℤ)
    (model : String) (sid : Option String) (msgs : List Message)
    (outcome : Nat → String → UpstreamOutcome) :
    Switchboard × Except PyErr Completion :=
  let (sb₁, r₁) := sb.createOnce sel now model sid msgs (outcome 1)
  match r₁ with
  | .ok v => (sb₁, .ok v)
  | .error e =>
    if e.isSwitchboardError then (sb₁, .error e)
    else sb₁.createOnce sel now model sid msgs (outcome 2)

/-- Embeds `Switchboard.reset_usage` (`switchboard.py`): `reset_usage` on every
deployment, which resets every model's counters (`deployment.py`). -/
def Switchboard.reset_usage (sb : Switchboard) : Switchboard :=
  { sb with deployments :=
      sb.deployments.map (fun d =>
        { d with models := d.models.map Model.reset_usage }) }

/-- Embeds `two_random_choices` (`switchboard.py`): `random.sample(options,
min(2, len(options)))` then the minimum by `d.util(model)`.  The random
sample is passed in as `sample`, and the ε-randomized utilization read of
each sampled deployment as `util`; `min` with a key returns the first
minimizer. -/
def two_random_choices (sample : List DeploymentState → List DeploymentState)
    (util : DeploymentState → ℚ) (_model : String)
    (options : List DeploymentState) : DeploymentState :=
  let selected := sample options
  match selected with
  -- `min` of an empty sample raises in Python; `random.sample` with
  -- `min(2, len(options)) ≥ 1` never yields this case for the nonempty
  -- `options` that `select_deployment` passes.
  | [] => { name := "" }
  | s :: ss => ss.foldl (fun best d => if util d < util best then d else best) s

/-! ## `Client.util` (`azure_switchboard/client.py`)

The per-deployment draft of the utilization function, with the
`time.time()` read and the `random.uniform(0, 0.01)` sample passed in
explicitly and float arithmetic carried out over `ℚ`. -/

/-- Python `round(x, 3)`: round to 3 decimal places (over `ℚ`; ties, which
floats almost never hit exactly, round half-up here). -/
def round3 (q : ℚ) : ℚ := (round (q * 1000) : ℤ) / 1000

/-- The fields of `azure_switchboard/client.py`'s `Client` that `util`
reads: the config limits, the cooldown stamp, and the two counters
(`ratelimit_tokens` may be reconciled downward, so it is an integer). -/
structure Client where
  tpm_ratelimit : Nat := 0
  rpm_ratelimit : Nat := 0
  cooldown_until : ℚ := 0
  ratelimit_tokens : ℤ := 0
  ratelimit_requests : Nat := 0
deriving DecidableEq, Repr

/-- Embeds `token_util`: token utilization as a fraction of the TPM limit, `0`
when the limit is `0`. -/
def Client.token_util (c : Client) : ℚ :=
  if 0 < c.tpm_ratelimit then (c.ratelimit_tokens : ℚ) / c.tpm_ratelimit
  else 0

/-- Embeds `request_util`: request utilization as a fraction of the RPM limit,
`0` when the limit is `0`. -/
def Client.request_util (c : Client) : ℚ :=
  if 0 < c.rpm_ratelimit then (c.ratelimit_requests : ℚ) / c.rpm_ratelimit
  else 0

/-- Embeds `Client.util` (`azure_switchboard/client.py`): `1` while cooling down,
otherwise `round(max(token_util, request_util) + ε, 3)` where each ratio
falls back to `0` when its limit is `0`. -/
def Client.util (c : Client) (now ε : ℚ) : ℚ :=
  if now < c.cooldown_until then 1
  else round3 (max c.token_util c.request_util + ε)

/-! ## Helper lemmas -/

/-- Finding by name after a name-preserving in-place update. -/
theorem find?_map_update (l : List Model) (n : String) (f : Model → Model)
    (hf : ∀ m, (f m).name = m.name) :
    (l.map (fun m => if m.name = n then f m else m)).find?
        (fun m => m.name = n)
      = (l.find? (fun m => m.name = n)).map f := by
  induction l with
  | nil => rfl
  | cons m t ih =>
    by_cases h : m.name = n
    · simp [List.find?, h, hf]
    · simp [List.find?, h, ih]

/-- Looking up `model?` after `updateModel` on the same name. -/
theorem model?_updateModel (d : DeploymentState) (n : String)
    (f : Model → Model) (hf : ∀ m, (f m).name = m.name) :
    (d.updateModel n f).model? n = (d.model? n).map f := by
  simp [DeploymentState.model?, DeploymentState.updateModel,
    find?_map_update _ _ _ hf]

/-- A present `"content"` set to Python `None` makes the token estimate
raise `TypeError`, whatever else the message list holds. -/
theorem estimate_token_usage_typeError (msgs : List Message)
    (hbad : ∃ msg ∈ msgs, msg.content = some .pyNone) :
    estimate_token_usage msgs = .error .typeError := by
  have key : ∀ l : List Message,
      (∃ msg ∈ l, msg.content = some .pyNone) →
      sumContentLens l = .error .typeError := by
    intro l
    induction l with
    | nil => intro h; simp at h
    | cons m t ih =>
      intro h
      rcases h with ⟨msg, hmem, hc⟩
      simp only [List.mem_cons] at hmem
      rcases hmem with rfl | hmem
      · rw [sumContentLens, hc]; rfl
      · rw [sumContentLens, ih ⟨msg, hmem, hc⟩]
        cases hv : m.content with
        | none => rfl
        | some v => cases v <;> rfl
  rw [estimate_token_usage]
  rw [key msgs hbad]
  rfl

/-- C10 helper: the update applied by the preflight spend keeps names. -/
theorem preflight_keeps_name (pf : Nat) (m : Model) :
    ((m.spend_tokens (pf : ℤ)).spend_request).name = m.name := rfl

/-! ## C10 -/

/-- C10: if the model is configured but some message's `content` is
present and is `None`, `DeploymentState.create` raises `TypeError` from
the preflight estimate and leaves the deployment state — every counter
and every cooldown — untouched. -/
theorem c10_preflight_typeError (d : DeploymentState) (model : String)
    (msgs : List Message) (outcome : UpstreamOutcome) (now : ℤ)
    (hconf : (d.model? model).isSome = true)
    (hbad : ∃ msg ∈ msgs, msg.content = some .pyNone) :
    d.create model msgs outcome now = (d, .error .typeError) := by
  rw [DeploymentState.create]
  simp [Option.isNone_iff_eq_none, estimate_token_usage_typeError msgs hbad]
  intro hnone
  rw [hnone] at hconf
  simp at hconf

/-! ## C4 -/

/-- C4: for a non-streaming `create` on a configured model whose preflight
estimate computes to `pf`, the attempted model's `rpm_usage` is strictly
greater after the call than before it, whatever the upstream did; on
success with a usage record `t` the net `tpm_usage` delta is exactly `t`;
on success without a usage record the delta is exactly `pf`. -/
theorem c4_preflight_accounting (d : DeploymentState) (model : String)
    (msgs : List Message) (outcome : UpstreamOutcome) (now : ℤ)
    (m₀ : Model) (pf : Nat)
    (hconf : d.model? model = some m₀)
    (hpf : estimate_token_usage msgs = .ok pf) :
    ∃ m', (d.create model msgs outcome now).1.model? model = some m' ∧
      m₀.rpm_usage < m'.rpm_usage ∧
      (∀ t, outcome = .ok (some t) → m'.tpm_usage = m₀.tpm_usage + t) ∧
      (outcome = .ok none → m'.tpm_usage = m₀.tpm_usage + pf) := by
  have hm1 : (d.updateModel model
        (fun m => (m.spend_tokens (pf : ℤ)).spend_request)).model? model
      = some ((m₀.spend_tokens (pf : ℤ)).spend_request) := by
    rw [model?_updateModel d model
      (fun m => (m.spend_tokens (pf : ℤ)).spend_request) (fun _ => rfl),
      hconf]
    rfl
  rw [DeploymentState.create, hconf, hpf]
  cases outcome with
  | ok usage =>
    cases usage with
    | some t =>
      refine ⟨((m₀.spend_tokens (pf : ℤ)).spend_request).spend_tokens
        ((t : ℤ) - (pf : ℤ)), ?_, ?_, ?_, ?_⟩
      · simp only [Option.isNone_some, Bool.false_eq_true, if_false]
        rw [model?_updateModel
          (d.updateModel model
            (fun m => (m.spend_tokens (pf : ℤ)).spend_request)) model
          (fun m => m.spend_tokens ((t : ℤ) - (pf : ℤ))) (fun _ => rfl),
          hm1]
        rfl
      · simp [Model.spend_tokens, Model.spend_request]
      · intro t' ht'
        cases ht'
        simp only [Model.spend_tokens, Model.spend_request]
        omega
      · intro h; cases h
    | none =>
      refine ⟨(m₀.spend_tokens (pf : ℤ)).spend_request, ?_, ?_, ?_, ?_⟩
      · simp only [Option.isNone_some, Bool.false_eq_true, if_false]
        exact hm1
      · simp [Model.spend_tokens, Model.spend_request]
      · intro t' ht'; cases ht'
      · intro _
        simp only [Model.spend_tokens, Model.spend_request]
        omega
  | raise e =>
    have hm2 : ((d.updateModel model
          (fun m => (m.spend_tokens (pf : ℤ)).spend_request)).updateModel
            model (fun m => m.mark_down now)).model? model
        = some (((m₀.spend_tokens (pf : ℤ)).spend_request).mark_down now) := by
      rw [model?_updateModel
        (d.updateModel model
          (fun m => (m.spend_tokens (pf : ℤ)).spend_request)) model
        (fun m => m.mark_down now) (fun _ => rfl), hm1]
      rfl
    refine ⟨(((m₀.spend_tokens (pf : ℤ)).spend_request).mark_down now),
      ?_, ?_, ?_, ?_⟩
    · simp only [Option.isNone_some, Bool.false_eq_true, if_false]
      cases e <;> simpa using hm2
    · simp [Model.spend_tokens, Model.spend_request, Model.mark_down]
    · intro t' ht'; cases ht'
    · intro h; cases h

/-- The fresh per-model state of the test fixture (`tests/fixtures.py`):
`gpt-4o-mini` with `tpm_ratelimit=10000`, `rpm_ratelimit=60`. -/
def miniModel : Model :=
  { name := "gpt-4o-mini", tpm_limit := 10000, rpm_limit := 60 }

/-- The two-deployment fixture used by several witnesses: `test1` serving
`gpt-4o-mini` with fresh counters. -/
def depA : DeploymentState := { name := "test1", models := [miniModel] }

/-- Second deployment of the fixture. -/
def depB : DeploymentState := { name := "test2", models := [miniModel] }

/-- Witness for C4: a configured deployment, a 13-character message
(`pf = 3`), upstream returning `usage.total_tokens = 11`. -/
theorem c4_preflight_accounting_witness :
    ∃ m', ((DeploymentState.create depA
        "gpt-4o-mini" [⟨some (.str "Hello, world!")⟩]
        (.ok (some 11)) 0).1.model? "gpt-4o-mini") = some m' ∧
      miniModel.rpm_usage < m'.rpm_usage ∧
      (∀ t, (UpstreamOutcome.ok (some 11)) = .ok (some t) →
        m'.tpm_usage = miniModel.tpm_usage + t) ∧
      ((UpstreamOutcome.ok (some 11)) = .ok none →
        m'.tpm_usage = miniModel.tpm_usage + 3) :=
  c4_preflight_accounting depA "gpt-4o-mini"
    [⟨some (.str "Hello, world!")⟩] (.ok (some 11)) 0 miniModel 3
    (by decide) (by decide)

/-- Witness for C10 at a concrete input: one deployment, one configured
model, a tool-call style message with `content = None`. -/
theorem c10_preflight_typeError_witness :
    DeploymentState.create
      { name := "test1", models := [{ name := "gpt-4o-mini" }] }
      "gpt-4o-mini" [⟨some .pyNone⟩] (.ok (some 11)) 0
      = ({ name := "test1", models := [{ name := "gpt-4o-mini" }] },
         .error .typeError) :=
  c10_preflight_typeError _ _ _ _ _ (by decide) ⟨⟨some .pyNone⟩, by decide⟩

/-! ## C8 -/

/-- C8: after `Switchboard.reset_usage`, every model of every deployment
has `tpm_usage = 0` and `rpm_usage = 0`, while the `cooldown_until` of
every model is exactly what it was before the call. -/
theorem c8_window_reset (sb : Switchboard) :
    ((sb.reset_usage).deployments.all fun d =>
        d.models.all fun m =>
          decide (m.tpm_usage = 0) && decide (m.rpm_usage = 0)) = true ∧
    (sb.reset_usage).deployments.map
        (fun d => d.models.map Model.cooldown_until)
      = sb.deployments.map (fun d => d.models.map Model.cooldown_until) := by
  constructor
  · simp [Switchboard.reset_usage, List.all_eq_true, Model.reset_usage]
  · simp [Switchboard.reset_usage, List.map_map, Function.comp,
      Model.reset_usage]

/-! ## C9 -/

/-- A step of the session-map workload: an insert or a (present-key)
lookup on the `_LRUDict`. -/
inductive LruOp where
  | put (k v : String)
  | get (k : String)
deriving DecidableEq, Repr

/-- Apply one `LruOp` to the session map. -/
def lruStep (max_size : Nat) (l : List (String × String)) :
    LruOp → List (String × String)
  | .put k v => lruPut max_size l k v
  | .get k => (lruGet l k).2

/-- Run a workload against an initially empty `_LRUDict`. -/
def lruRun (max_size : Nat) (ops : List LruOp) : List (String × String) :=
  ops.foldl (lruStep max_size) []

/-- Dropping the entries of a present key shortens the list. -/
theorem length_filter_ne_lt {l : List (String × String)} {k : String}
    (h : (l.find? (fun p => p.1 = k)).isSome = true) :
    (l.filter (fun q => q.1 ≠ k)).length < l.length := by
  simp only [ne_eq, decide_not]
  induction l with
  | nil => simp [List.find?] at h
  | cons a t ih =>
    by_cases ha : a.1 = k
    · have hle : (t.filter (fun q => !decide (q.1 = k))).length ≤ t.length :=
        List.length_filter_le _ _
      simp [List.filter_cons, ha]
      omega
    · have h' : (t.find? (fun p => p.1 = k)).isSome = true := by
        rw [List.find?] at h
        simpa [ha] using h
      have ht := ih h'
      simp [List.filter_cons, ha]
      omega

/-- The `__setitem__` method always leaves at most `max_size` entries. -/
theorem lruPut_length_le (max_size : Nat) (l : List (String × String))
    (k v : String) : (lruPut max_size l k v).length ≤ max_size := by
  rw [lruPut]
  simp only [List.length_drop]
  omega

/-- The `__getitem__` method never grows the dict. -/
theorem lruGet_length_le (l : List (String × String)) (k : String) :
    ((lruGet l k).2).length ≤ l.length := by
  rw [lruGet]
  cases hf : l.find? (fun p => p.1 = k) with
  | none => simp
  | some p =>
    have := length_filter_ne_lt (l := l) (k := k) (by rw [hf]; rfl)
    simp only [List.length_append, List.length_cons, List.length_nil]
    omega

/-- C9: the session map holds at most `max_sessions` entries after any
sequence of inserts and lookups, and an insert of a fresh key into a full
map evicts exactly the least-recently-used entry (the front of the
order, since both reads and writes move their key to the back). -/
theorem c9_lru_bound (max_size : Nat) (ops : List LruOp) :
    (lruRun max_size ops).length ≤ max_size ∧
    (∀ (l : List (String × String)) (k v : String),
      0 < max_size → l.length = max_size →
      k ∉ l.map Prod.fst →
      lruPut max_size l k v = l.tail ++ [(k, v)]) := by
  constructor
  · have key : ∀ (os : List LruOp) (l : List (String × String)),
        l.length ≤ max_size →
        (os.foldl (lruStep max_size) l).length ≤ max_size := by
      intro os
      induction os with
      | nil => intro l h; simpa using h
      | cons o t ih =>
        intro l h
        rw [List.foldl_cons]
        apply ih
        cases o with
        | put k v => exact lruPut_length_le max_size l k v
        | get k => exact le_trans (lruGet_length_le l k) h
    exact key ops [] (by simp)
  · intro l k v hmax hlen hfresh
    have hall : l.filter (fun q => q.1 ≠ k) = l := by
      apply List.filter_eq_self.mpr
      intro p hp
      simp only [ne_eq, decide_not, Bool.not_eq_true', decide_eq_false_iff_not]
      intro hpk
      exact hfresh (hpk ▸ List.mem_map_of_mem Prod.fst hp)
    rw [lruPut, hall]
    cases l with
    | nil => simp at hlen; omega
    | cons a t =>
      simp only [List.length_append, List.length_cons, List.length_nil,
        List.cons_append, List.tail_cons]
      have : t.length + 1 + 1 - max_size = 1 := by
        simp at hlen; omega
      rw [this]
      simp

/-! ## C5 -/

/-- The stream wrapper forwards every chunk verbatim. -/
theorem consumeStream_forwards (d : DeploymentState) (model : String)
    (off : Nat) (chunks : List Chunk) :
    (consumeStream d model off chunks).2 = chunks := by
  induction chunks generalizing d with
  | nil => rfl
  | cons c rest ih =>
    rw [consumeStream]
    cases hcu : c.usage <;> simp [hcu, ih]

/-- Chunks without a usage record leave the deployment state alone. -/
theorem consumeStream_no_usage (d : DeploymentState) (model : String)
    (off : Nat) (chunks : List Chunk)
    (h : ∀ c ∈ chunks, c.usage = none) :
    (consumeStream d model off chunks).1 = d := by
  induction chunks generalizing d with
  | nil => rfl
  | cons c rest ih =>
    rw [consumeStream]
    rw [h c (by simp)]
    simp [ih _ (fun x hx => h x (by simp [hx]))]

/-- Consuming a stream with exactly one usage-bearing chunk applies
exactly one reconciliation to the model. -/
theorem consumeStream_single_usage (d : DeploymentState) (model : String)
    (off : Nat) (pre post : List Chunk) (cu : Chunk) (t : Nat)
    (hcu : cu.usage = some t)
    (hpre : ∀ c ∈ pre, c.usage = none)
    (hpost : ∀ c ∈ post, c.usage = none) :
    (consumeStream d model off (pre ++ cu :: post)).1
      = d.updateModel model
          (fun m => m.spend_tokens ((t : ℤ) - (off : ℤ))) := by
  induction pre generalizing d with
  | nil =>
    simp only [List.nil_append]
    rw [consumeStream, hcu]
    simp [consumeStream_no_usage _ _ _ _ hpost]
  | cons c cs ih =>
    simp only [List.cons_append]
    rw [consumeStream]
    rw [hpre c (by simp)]
    simp [ih _ (fun x hx => hpre x (by simp [hx]))]

/-- C5: a streamed request with preflight offset `pf` forwards every
upstream chunk verbatim, and when exactly one chunk carries
`usage.total_tokens = t`, the net `tpm_usage` delta over preflight plus
reconciliation is exactly `t`, for any number of surrounding chunks
(`rpm_usage` having gone up by the one preflight request). -/
theorem c5_stream_reconciliation (d : DeploymentState) (model : String)
    (msgs : List Message) (now : ℤ) (m₀ : Model) (pf : Nat)
    (pre post : List Chunk) (cu : Chunk) (t : Nat)
    (hconf : d.model? model = some m₀)
    (hpf : estimate_token_usage msgs = .ok pf)
    (hcu : cu.usage = some t)
    (hpre : ∀ c ∈ pre, c.usage = none)
    (hpost : ∀ c ∈ post, c.usage = none) :
    (d.createStream model msgs (.ok none) now).2 = .ok pf ∧
    (consumeStream (d.createStream model msgs (.ok none) now).1 model pf
        (pre ++ cu :: post)).2 = pre ++ cu :: post ∧
    ∃ m', (consumeStream (d.createStream model msgs (.ok none) now).1 model
        pf (pre ++ cu :: post)).1.model? model = some m' ∧
      m'.tpm_usage = m₀.tpm_usage + t ∧
      m'.rpm_usage = m₀.rpm_usage + 1 := by
  have hcs : d.createStream model msgs (.ok none) now
      = (d.updateModel model
          (fun m => (m.spend_tokens (pf : ℤ)).spend_request), .ok pf) := by
    rw [DeploymentState.createStream, hconf, hpf]
    simp only [Option.isNone_some, Bool.false_eq_true, if_false]
  rw [hcs]
  refine ⟨rfl, consumeStream_forwards _ _ _ _, ?_⟩
  rw [consumeStream_single_usage _ _ _ _ _ _ _ hcu hpre hpost]
  rw [model?_updateModel _ model
    (fun m => m.spend_tokens ((t : ℤ) - (pf : ℤ))) (fun _ => rfl)]
  rw [model?_updateModel d model
    (fun m => (m.spend_tokens (pf : ℤ)).spend_request) (fun _ => rfl)]
  rw [hconf]
  refine ⟨_, rfl, ?_, rfl⟩
  simp only [Model.spend_tokens, Model.spend_request]
  omega

/-- Witness for C5: depA streaming the four mock chunks of the test
fixture (three without usage, the final one with `total_tokens = 20`),
preflight `pf = 3` from the 13-character message. -/
theorem c5_stream_reconciliation_witness :
    (depA.createStream "gpt-4o-mini" [⟨some (.str "Hello, world!")⟩]
        (.ok none) 0).2 = .ok 3 ∧
    (consumeStream (depA.createStream "gpt-4o-mini"
        [⟨some (.str "Hello, world!")⟩] (.ok none) 0).1 "gpt-4o-mini" 3
        ([⟨"Hello", none⟩, ⟨", ", none⟩, ⟨"world!", none⟩]
          ++ ⟨"", some 20⟩ :: [])).2
      = [⟨"Hello", none⟩, ⟨", ", none⟩, ⟨"world!", none⟩]
          ++ ⟨"", some 20⟩ :: [] ∧
    ∃ m', (consumeStream (depA.createStream "gpt-4o-mini"
        [⟨some (.str "Hello, world!")⟩] (.ok none) 0).1 "gpt-4o-mini" 3
        ([⟨"Hello", none⟩, ⟨", ", none⟩, ⟨"world!", none⟩]
          ++ ⟨"", some 20⟩ :: [])).1.model? "gpt-4o-mini" = some m' ∧
      m'.tpm_usage = miniModel.tpm_usage + 20 ∧
      m'.rpm_usage = miniModel.rpm_usage + 1 :=
  c5_stream_reconciliation depA "gpt-4o-mini"
    [⟨some (.str "Hello, world!")⟩] 0 miniModel 3
    [⟨"Hello", none⟩, ⟨", ", none⟩, ⟨"world!", none⟩] [] ⟨"", some 20⟩ 20
    (by decide) (by decide) (by decide) (by decide) (by decide)

/-! ## C3 -/

/-- The default selector returns one of its candidates, whatever the
random sample and the ε-randomized utilizations were, provided the sample
is a nonempty selection from the candidates (which `random.sample(options,
min(2, len(options)))` guarantees for nonempty `options`). -/
theorem two_random_choices_mem
    (sample : List DeploymentState → List DeploymentState)
    (util : DeploymentState → ℚ) (m : String) (l : List DeploymentState)
    (hsub : ∀ x ∈ sample l, x ∈ l) (hne : sample l ≠ []) :
    two_random_choices sample util m l ∈ l := by
  rw [two_random_choices]
  have key : ∀ (rest : List DeploymentState) (init : DeploymentState),
      init ∈ l → (∀ x ∈ rest, x ∈ l) →
      rest.foldl (fun best d => if util d < util best then d else best) init
        ∈ l := by
    intro rest
    induction rest with
    | nil => intro init h _; simpa using h
    | cons r rs ih =>
      intro init h hrest
      rw [List.foldl_cons]
      by_cases hlt : util r < util init <;> simp only [hlt, if_true, if_false]
      · exact ih r (hrest r (by simp)) (fun x hx => hrest x (by simp [hx]))
      · exact ih init h (fun x hx => hrest x (by simp [hx]))
  cases hs : sample l with
  | nil => exact absurd hs hne
  | cons s ss =>
    exact key ss s (hsub s (by rw [hs]; simp))
      (fun x hx => hsub x (by rw [hs]; simp [hx]))

/-- Finding a member of a name-deduplicated list by its own name yields
that member. -/
theorem find?_name_of_mem (l : List DeploymentState) (d : DeploymentState)
    (hnodup : (l.map DeploymentState.name).Nodup) (hmem : d ∈ l) :
    l.find? (fun x => x.name = d.name) = some d := by
  induction l with
  | nil => simp at hmem
  | cons a t ih =>
    simp only [List.map_cons, List.nodup_cons] at hnodup
    rcases List.mem_cons.mp hmem with rfl | hmem'
    · rw [List.find?_cons_of_pos _ (by simp)]
    · have hna : ¬ a.name = d.name := by
        intro heq
        have hd : d.name ∈ t.map DeploymentState.name :=
          List.mem_map_of_mem _ hmem'
        exact hnodup.1 (heq ▸ hd)
      rw [List.find?_cons_of_neg _ (by simp [hna])]
      exact ih hnodup.2 hmem'

/-- With unique deployment names, dereferencing a member's name finds that
member. -/
theorem depByName_of_mem (sb : Switchboard) (d : DeploymentState)
    (hnodup : (sb.deployments.map DeploymentState.name).Nodup)
    (hmem : d ∈ sb.deployments) : sb.depByName d.name = some d :=
  find?_name_of_mem sb.deployments d hnodup hmem

/-- A successful `selectEligible` chose a healthy member of the
deployments map: the selector only ever sees the healthy filter. -/
theorem selectEligible_ok (sb : Switchboard)
    (sel : String → List DeploymentState → DeploymentState) (now : ℤ)
    (model : String) (sid : Option String) (dn : String) (sb' : Switchboard)
    (hsel : ∀ m l, l ≠ [] → sel m l ∈ l)
    (h : sb.selectEligible sel now model sid = .ok (dn, sb')) :
    ∃ d ∈ sb.deployments, d.name = dn ∧ d.is_healthy model now = true := by
  rw [Switchboard.selectEligible] at h
  cases heli : sb.deployments.filter (fun d => d.is_healthy model now) with
  | nil => rw [heli] at h; simp at h
  | cons e es =>
    rw [heli] at h
    simp only [Except.ok.injEq, Prod.mk.injEq] at h
    have hmemfilter : (if es = [] then e else sel model (e :: es)) ∈ e :: es := by
      by_cases hes : es = []
      · simp [hes]
      · simp only [hes, if_false]
        exact hsel model (e :: es) (by simp)
    have hmem : (if es = [] then e else sel model (e :: es))
        ∈ sb.deployments.filter (fun d => d.is_healthy model now) := by
      rw [heli]; exact hmemfilter
    have hsplit := List.mem_filter.mp hmem
    exact ⟨_, hsplit.1, h.1, by simpa using hsplit.2⟩

/-- When no deployment is healthy for the model, `selectEligible` raises
the no-eligible-deployments `SwitchboardError`. -/
theorem selectEligible_err (sb : Switchboard)
    (sel : String → List DeploymentState → DeploymentState) (now : ℤ)
    (model : String) (sid : Option String)
    (hall : ∀ d ∈ sb.deployments, d.is_healthy model now = false) :
    sb.selectEligible sel now model sid
      = .error (.switchboardError
          ("No eligible deployments available for " ++ model)) := by
  rw [Switchboard.selectEligible]
  have hnil : sb.deployments.filter (fun d => d.is_healthy model now) = [] := by
    rw [List.filter_eq_nil_iff]
    intro d hd
    simp [hall d hd]
  rw [hnil]

/-- Any successful `select_deployment` either returned a
checked-healthy pinned deployment or went through `selectEligible` on a
switchboard with the same deployments map. -/
theorem select_deployment_ok_cases (sb : Switchboard)
    (sel : String → List DeploymentState → DeploymentState) (now : ℤ)
    (model : String) (sid : Option String) (dn : String) (sb' : Switchboard)
    (h : sb.select_deployment sel now model sid = .ok (dn, sb')) :
    (∃ d, sb.depByName dn = some d ∧ d.is_healthy model now = true) ∨
    (∃ sb₁ : Switchboard, sb₁.deployments = sb.deployments ∧
      sb₁.selectEligible sel now model sid = .ok (dn, sb')) := by
  rw [Switchboard.select_deployment.eq_def] at h
  split at h
  · exact .inr ⟨sb, rfl, h⟩
  · rename_i s
    split at h
    · exact .inr ⟨sb, rfl, h⟩
    · split at h
      · exact .inr ⟨sb, rfl, h⟩
      · split at h
        · rename_i dep hdep
          split at h
          · rename_i hh
            simp only [Except.ok.injEq, Prod.mk.injEq] at h
            refine .inl ⟨dep, ?_, hh⟩
            rw [← h.1]
            exact hdep
          · exact .inr
              ⟨{ sb with sessions := (lruGet sb.sessions s).2 }, rfl, h⟩
        · exact .inr
            ⟨{ sb with sessions := (lruGet sb.sessions s).2 }, rfl, h⟩

/-- When no deployment is healthy for the model, `select_deployment`
raises the no-eligible-deployments error through every path, the
session-pinned one included. -/
theorem select_deployment_err (sb : Switchboard)
    (sel : String → List DeploymentState → DeploymentState) (now : ℤ)
    (model : String) (sid : Option String)
    (hall : ∀ d ∈ sb.deployments, d.is_healthy model now = false) :
    sb.select_deployment sel now model sid
      = .error (.switchboardError
          ("No eligible deployments available for " ++ model)) := by
  rw [Switchboard.select_deployment.eq_def]
  split
  · exact selectEligible_err sb sel now model none hall
  · rename_i s
    split
    · exact selectEligible_err sb sel now model (some s) hall
    · split
      · exact selectEligible_err sb sel now model (some s) hall
      · split
        · rename_i dep hdep
          have hmem : dep ∈ sb.deployments :=
            List.mem_of_find?_eq_some hdep
          rw [hall dep hmem]
          simp only [Bool.false_eq_true, if_false]
          exact selectEligible_err _ sel now model (some s) hall
        · exact selectEligible_err _ sel now model (some s) hall

/-- C3: `select_deployment` never returns a deployment that is unhealthy
for the requested model — the session-pinned path re-checks health and
the fallthrough path selects from the healthy filter — and when no
deployment serving the model is healthy it fails with the
no-eligible-deployments `SwitchboardError`. -/
theorem c3_selection_health (sb : Switchboard)
    (sel : String → List DeploymentState → DeploymentState) (now : ℤ)
    (model : String) (sid : Option String)
    (hsel : ∀ m l, l ≠ [] → sel m l ∈ l)
    (hnodup : (sb.deployments.map DeploymentState.name).Nodup) :
    (∀ dn sb', sb.select_deployment sel now model sid = .ok (dn, sb') →
      ∃ d, sb.depByName dn = some d ∧ d.is_healthy model now = true) ∧
    ((∀ d ∈ sb.deployments, d.is_healthy model now = false) →
      sb.select_deployment sel now model sid
        = .error (.switchboardError
            ("No eligible deployments available for " ++ model))) := by
  constructor
  · intro dn sb' h
    rcases select_deployment_ok_cases sb sel now model sid dn sb' h with
      hc | ⟨sb₁, hdeps, h₁⟩
    · exact hc
    · obtain ⟨d, hmem, hdn, hh⟩ :=
        selectEligible_ok sb₁ sel now model sid dn sb' hsel h₁
      rw [hdeps] at hmem
      refine ⟨d, ?_, hh⟩
      rw [← hdn]
      exact depByName_of_mem sb d hnodup hmem
  · exact select_deployment_err sb sel now model sid

/-! ## C6 -/

/-- Appending a key at the back makes it findable when the front is free
of it. -/
theorem find?_append_key (l : List (String × String)) (k v : String)
    (h : ∀ p ∈ l, ¬ p.1 = k) :
    (l ++ [(k, v)]).find? (fun p => p.1 = k) = some (k, v) := by
  induction l with
  | nil => simp [List.find?]
  | cons a t ih =>
    rw [List.cons_append, List.find?_cons_of_neg _ (by simp [h a (by simp)])]
    exact ih (fun p hp => h p (by simp [hp]))

/-- An LRU touch preserves what a key maps to. -/
theorem lruGet_touch (l : List (String × String)) (k : String) (v : String)
    (h : (lruGet l k).1 = some v) :
    (lruGet (lruGet l k).2 k).1 = some v := by
  rw [lruGet] at h
  cases hf : l.find? (fun p => p.1 = k) with
  | none => rw [hf] at h; simp at h
  | some p =>
    rw [hf] at h
    simp only at h
    have h2 : (lruGet l k).2 = l.filter (fun q => q.1 ≠ k) ++ [(k, p.2)] := by
      rw [lruGet, hf]
    have hkey : ∀ q ∈ l.filter (fun q => q.1 ≠ k), ¬ q.1 = k := by
      intro q hq
      have := List.of_mem_filter hq
      simpa using this
    rw [h2, lruGet, find?_append_key _ _ _ hkey]
    simpa using h

/-- After `put k v`, `k` maps to `v` (the entry at the recent end survives
the front eviction while the capacity is positive). -/
theorem lruGet_lruPut_self (max_size : Nat) (l : List (String × String))
    (k v : String) (hmax : 0 < max_size) :
    (lruGet (lruPut max_size l k v) k).1 = some v := by
  rw [lruPut]
  have hlen : (l.filter (fun p => p.1 ≠ k) ++ [(k, v)]).length
      = (l.filter (fun p => p.1 ≠ k)).length + 1 := by simp
  have hle : (l.filter (fun p => p.1 ≠ k) ++ [(k, v)]).length - max_size
      ≤ (l.filter (fun p => p.1 ≠ k)).length := by omega
  have hkey : ∀ q ∈ List.drop
      ((l.filter (fun p => p.1 ≠ k) ++ [(k, v)]).length - max_size)
      (l.filter (fun p => p.1 ≠ k)), ¬ q.1 = k := by
    intro q hq
    have := List.of_mem_filter (List.mem_of_mem_drop hq)
    simpa using this
  rw [List.drop_append_of_le_length hle, lruGet,
    find?_append_key _ _ _ hkey]

/-- A successful `selectEligible` leaves the deployments map and the
session capacity untouched. -/
theorem selectEligible_ok_state (sb : Switchboard)
    (sel : String → List DeploymentState → DeploymentState) (now : ℤ)
    (model : String) (sid : Option String) (dn : String) (sb' : Switchboard)
    (h : sb.selectEligible sel now model sid = .ok (dn, sb')) :
    sb'.deployments = sb.deployments ∧
    sb'.max_sessions = sb.max_sessions := by
  rw [Switchboard.selectEligible] at h
  split at h
  · simp at h
  · simp only [Except.ok.injEq, Prod.mk.injEq] at h
    rw [← h.2]
    cases sid with
    | none => exact ⟨rfl, rfl⟩
    | some s =>
      by_cases hs : s = ""
      · subst hs
        exact ⟨rfl, rfl⟩
      · simp [if_neg hs]

/-- A successful `selectEligible` with a (truthy) session id pins the
session to the chosen deployment. -/
theorem selectEligible_pins (sb : Switchboard)
    (sel : String → List DeploymentState → DeploymentState) (now : ℤ)
    (model s : String) (dn : String) (sb' : Switchboard)
    (hs : ¬ s = "") (hmax : 0 < sb.max_sessions)
    (h : sb.selectEligible sel now model (some s) = .ok (dn, sb')) :
    (lruGet sb'.sessions s).1 = some dn := by
  rw [Switchboard.selectEligible] at h
  split at h
  · simp at h
  · simp only [if_neg hs, Except.ok.injEq, Prod.mk.injEq] at h
    rw [← h.2, ← h.1]
    exact lruGet_lruPut_self sb.max_sessions sb.sessions s _ hmax

/-- A successful `select_deployment` leaves the deployments map and the
session capacity untouched. -/
theorem select_deployment_ok_state (sb : Switchboard)
    (sel : String → List DeploymentState → DeploymentState) (now : ℤ)
    (model : String) (sid : Option String) (dn : String) (sb' : Switchboard)
    (h : sb.select_deployment sel now model sid = .ok (dn, sb')) :
    sb'.deployments = sb.deployments ∧
    sb'.max_sessions = sb.max_sessions := by
  rw [Switchboard.select_deployment.eq_def] at h
  split at h
  · exact selectEligible_ok_state sb sel now model _ dn sb' h
  · rename_i s
    split at h
    · exact selectEligible_ok_state sb sel now model _ dn sb' h
    · split at h
      · exact selectEligible_ok_state sb sel now model _ dn sb' h
      · split at h
        · split at h
          · simp only [Except.ok.injEq, Prod.mk.injEq] at h
            rw [← h.2]
            exact ⟨rfl, rfl⟩
          · exact selectEligible_ok_state
              { sb with sessions := (lruGet sb.sessions s).2 }
              sel now model _ dn sb' h
        · exact selectEligible_ok_state
            { sb with sessions := (lruGet sb.sessions s).2 }
            sel now model _ dn sb' h

/-- A successful `select_deployment` with a (truthy) session id leaves the
session pinned to the returned deployment, on every path. -/
theorem select_deployment_pins (sb : Switchboard)
    (sel : String → List DeploymentState → DeploymentState) (now : ℤ)
    (model s : String) (dn : String) (sb' : Switchboard)
    (hs : ¬ s = "") (hmax : 0 < sb.max_sessions)
    (h : sb.select_deployment sel now model (some s) = .ok (dn, sb')) :
    (lruGet sb'.sessions s).1 = some dn := by
  rw [Switchboard.select_deployment.eq_def] at h
  simp only [if_neg hs] at h
  split at h
  · exact selectEligible_pins sb sel now model s dn sb' hs hmax h
  · rename_i pinned hpin
    split at h
    · rename_i dep hdep
      split at h
      · simp only [Except.ok.injEq, Prod.mk.injEq] at h
        rw [← h.2, ← h.1]
        exact lruGet_touch sb.sessions s pinned hpin
      · exact selectEligible_pins
          { sb with sessions := (lruGet sb.sessions s).2 }
          sel now model s dn sb' hs hmax h
    · exact selectEligible_pins
        { sb with sessions := (lruGet sb.sessions s).2 }
        sel now model s dn sb' hs hmax h

/-- When the pinned deployment passes the health check,
`select_deployment` returns it and only touches the LRU order. -/
theorem select_deployment_hit (sb : Switchboard)
    (sel : String → List DeploymentState → DeploymentState) (now : ℤ)
    (model s pinned : String) (dep : DeploymentState)
    (hs : ¬ s = "")
    (hpin : (lruGet sb.sessions s).1 = some pinned)
    (hdep : ({ sb with
        sessions := (lruGet sb.sessions s).2 } : Switchboard).depByName
        pinned = some dep)
    (hh : dep.is_healthy model now = true) :
    sb.select_deployment sel now model (some s)
      = .ok (pinned, { sb with sessions := (lruGet sb.sessions s).2 }) := by
  rw [Switchboard.select_deployment.eq_def]
  simp only [if_neg hs, hpin, hdep, hh, if_true]

/-- When the pinned deployment fails the health check,
`select_deployment` falls through to `selectEligible` on the
LRU-touched switchboard. -/
theorem select_deployment_unhealthy (sb : Switchboard)
    (sel : String → List DeploymentState → DeploymentState) (now : ℤ)
    (model s pinned : String) (dep : DeploymentState)
    (hs : ¬ s = "")
    (hpin : (lruGet sb.sessions s).1 = some pinned)
    (hdep : ({ sb with
        sessions := (lruGet sb.sessions s).2 } : Switchboard).depByName
        pinned = some dep)
    (hh : dep.is_healthy model now = false) :
    sb.select_deployment sel now model (some s)
      = ({ sb with
          sessions := (lruGet sb.sessions s).2 } : Switchboard).selectEligible
          sel now model (some s) := by
  rw [Switchboard.select_deployment.eq_def]
  simp only [if_neg hs, hpin, hdep, hh, Bool.false_eq_true, if_false]

/-- C6: after a `select_deployment(model, s)` call returned deployment
`dn₁`, an immediately following `select_deployment(model, s)` call
returns the same deployment iff that deployment is still healthy for the
model; when it has become unhealthy, a successful second call returns a
different deployment and the session map entry for `s` is overwritten
with the new choice (the session is repinned). -/
theorem c6_session_stickiness (sb : Switchboard)
    (sel : String → List DeploymentState → DeploymentState)
    (now₁ now₂ : ℤ) (model s dn₁ : String) (sb₁ : Switchboard)
    (d₁ : DeploymentState)
    (hsel : ∀ m l, l ≠ [] → sel m l ∈ l)
    (hnodup : (sb.deployments.map DeploymentState.name).Nodup)
    (hs : ¬ s = "") (hmax : 0 < sb.max_sessions)
    (h₁ : sb.select_deployment sel now₁ model (some s) = .ok (dn₁, sb₁))
    (hd₁ : sb.depByName dn₁ = some d₁) :
    (d₁.is_healthy model now₂ = true →
      ∃ sb₂, sb₁.select_deployment sel now₂ model (some s)
        = .ok (dn₁, sb₂)) ∧
    (∀ dn₂ sb₂,
      sb₁.select_deployment sel now₂ model (some s) = .ok (dn₂, sb₂) →
      (dn₂ = dn₁ ↔ d₁.is_healthy model now₂ = true) ∧
      (d₁.is_healthy model now₂ = false →
        (lruGet sb₂.sessions s).1 = some dn₂)) := by
  have hstate :=
    select_deployment_ok_state sb sel now₁ model (some s) dn₁ sb₁ h₁
  have hpin := select_deployment_pins sb sel now₁ model s dn₁ sb₁ hs hmax h₁
  have hdepT : ({ sb₁ with
      sessions := (lruGet sb₁.sessions s).2 } : Switchboard).depByName dn₁
      = some d₁ := by
    have heq : ({ sb₁ with
        sessions := (lruGet sb₁.sessions s).2 } : Switchboard).depByName dn₁
        = sb₁.depByName dn₁ := rfl
    rw [heq, Switchboard.depByName, hstate.1, ← Switchboard.depByName]
    exact hd₁
  constructor
  · intro hh
    exact ⟨_, select_deployment_hit sb₁ sel now₂ model s dn₁ d₁ hs hpin
      hdepT hh⟩
  · intro dn₂ sb₂ h₂
    by_cases hh : d₁.is_healthy model now₂ = true
    · have huniq := select_deployment_hit sb₁ sel now₂ model s dn₁ d₁ hs
        hpin hdepT hh
      rw [huniq] at h₂
      simp only [Except.ok.injEq, Prod.mk.injEq] at h₂
      refine ⟨⟨fun _ => hh, fun _ => h₂.1.symm⟩, ?_⟩
      intro hf
      rw [hh] at hf
      cases hf
    · have hhf : d₁.is_healthy model now₂ = false := by
        cases hb : d₁.is_healthy model now₂
        · rfl
        · exact absurd hb hh
      have hmiss := select_deployment_unhealthy sb₁ sel now₂ model s dn₁ d₁
        hs hpin hdepT hhf
      rw [hmiss] at h₂
      obtain ⟨d₂, hmem₂, hn₂, hh₂⟩ :=
        selectEligible_ok _ sel now₂ model (some s) dn₂ sb₂ hsel h₂
      have hmem₂' : d₂ ∈ sb.deployments := by
        have heq : ({ sb₁ with
            sessions := (lruGet sb₁.sessions s).2 } : Switchboard).deployments
            = sb₁.deployments := rfl
        rw [heq, hstate.1] at hmem₂
        exact hmem₂
      have hneq : dn₂ ≠ dn₁ := by
        intro heqn
        have hfind := depByName_of_mem sb d₂ hnodup hmem₂'
        rw [hn₂, heqn, hd₁] at hfind
        have hd : d₁ = d₂ := by
          injection hfind
        rw [← hd] at hh₂
        exact hh hh₂
      refine ⟨⟨fun he => absurd he hneq, fun hc => absurd hc hh⟩, ?_⟩
      intro _
      refine selectEligible_pins _ sel now₂ model s dn₂ sb₂ hs ?_ h₂
      show 0 < sb₁.max_sessions
      rw [hstate.2]
      exact hmax

/-- The concrete selector used by witnesses: the default
`two_random_choices` with the random sample fixed to the first two
candidates and all ε-samples fixed to `0`. -/
def selTake2 : String → List DeploymentState → DeploymentState :=
  two_random_choices (fun l => l.take 2) (fun _ => 0)

/-- The selector `selTake2` always picks one of its candidates. -/
theorem selTake2_mem : ∀ (m : String) (l : List DeploymentState),
    l ≠ [] → selTake2 m l ∈ l := by
  intro m l hne
  apply two_random_choices_mem
  · intro x hx
    exact List.mem_of_mem_take hx
  · cases l with
    | nil => exact absurd rfl hne
    | cons a t => simp

/-- Witness for C3: two deployments, `test1` cooling down until `t = 10`,
`test2` healthy, queried at `now = 5`. -/
theorem c3_selection_health_witness :
    (∀ dn sb', (Switchboard.mk
        [{ name := "test1",
           models := [{ miniModel with cooldown_until := 10 }] }, depB]
        [] 1024).select_deployment selTake2 5 "gpt-4o-mini" none
        = .ok (dn, sb') →
      ∃ d, (Switchboard.mk
        [{ name := "test1",
           models := [{ miniModel with cooldown_until := 10 }] }, depB]
        [] 1024).depByName dn = some d ∧
        d.is_healthy "gpt-4o-mini" 5 = true) ∧
    ((∀ d ∈ (Switchboard.mk
        [{ name := "test1",
           models := [{ miniModel with cooldown_until := 10 }] }, depB]
        [] 1024).deployments,
        d.is_healthy "gpt-4o-mini" 5 = false) →
      (Switchboard.mk
        [{ name := "test1",
           models := [{ miniModel with cooldown_until := 10 }] }, depB]
        [] 1024).select_deployment selTake2 5 "gpt-4o-mini" none
        = .error (.switchboardError
            ("No eligible deployments available for " ++ "gpt-4o-mini"))) :=
  c3_selection_health _ selTake2 5 "gpt-4o-mini" none selTake2_mem
    (by decide)

/-- The two-deployment switchboard of the session-stickiness test. -/
def c6sb : Switchboard := ⟨[depA, depB], [], 1024⟩

/-- State of `c6sb` after the first `select_deployment` pinned session `"x"` to
`test1`. -/
def c6sb₁ : Switchboard := ⟨[depA, depB], [("x", "test1")], 1024⟩

/-- Witness for C6: the first call on `c6sb` pins `"x"` to `test1`; the
conclusions are instantiated at a second call at the same time (at which
`test1` is healthy). -/
theorem c6_session_stickiness_witness :
    (depA.is_healthy "gpt-4o-mini" 0 = true →
      ∃ sb₂, c6sb₁.select_deployment selTake2 0 "gpt-4o-mini" (some "x")
        = .ok ("test1", sb₂)) ∧
    (∀ dn₂ sb₂,
      c6sb₁.select_deployment selTake2 0 "gpt-4o-mini" (some "x")
        = .ok (dn₂, sb₂) →
      (dn₂ = "test1" ↔ depA.is_healthy "gpt-4o-mini" 0 = true) ∧
      (depA.is_healthy "gpt-4o-mini" 0 = false →
        (lruGet sb₂.sessions "x").1 = some dn₂)) :=
  c6_session_stickiness c6sb selTake2 0 0 "gpt-4o-mini" "x" "test1" c6sb₁
    depA selTake2_mem (by decide) (by decide) (by decide) (by decide)
    (by decide)

/-! ## C1 and C2: the failover policy -/

/-- Upstream behaviour of scenario S3: `test1` raises `RateLimitError`,
`test2` returns a completion with `usage.total_tokens = 30` (on every
attempt). -/
def s3outcome : Nat → String → UpstreamOutcome := fun _ dn =>
  if dn = "test1" then .raise .rateLimitError else .ok (some 30)

/-- Model state of `test1` after its preflight spend (`pf = 3`) and the
429 mark-down at `now = 0`. -/
def miniAfterRL : Model :=
  { miniModel with
    tpm_usage := 3
    rpm_usage := 1
    cooldown_until := 60 }

/-- Model state of `test2` after serving the request: preflight 3 then
reconciliation to `total_tokens = 30`. -/
def miniServed : Model :=
  { miniModel with
    tpm_usage := 30
    rpm_usage := 1 }

/-- C1, evaluated at its failing input (scenario S3): `test1` rate-limits
the first attempt.  The code marks `test1` down but `DEFAULT_FAILOVER_POLICY`
(`retry_if_not_exception_type(SwitchboardError)`) does **not** retry the
`SwitchboardError` that `DeploymentState.create` raised for the 429, so
`test2` is never attempted (its counters stay fresh) and the caller gets
the exception instead of `test2`'s completion. -/
theorem c1_rate_limit_not_retried :
    (c6sb.create selTake2 0 "gpt-4o-mini" none
        [⟨some (.str "Hello, world!")⟩] s3outcome).2
      = .error (.switchboardError
          "Rate limit exceeded in deployment chat completion") ∧
    ((c6sb.create selTake2 0 "gpt-4o-mini" none
        [⟨some (.str "Hello, world!")⟩] s3outcome).1.depByName "test2")
      = some depB ∧
    (((c6sb.create selTake2 0 "gpt-4o-mini" none
        [⟨some (.str "Hello, world!")⟩] s3outcome).1.depByName
        "test1").map (fun d => d.model? "gpt-4o-mini"))
      = some (some miniAfterRL) := by
  refine ⟨?_, ?_, ?_⟩ <;> decide

/-- Upstream behaviour of the C2 counterexample: `test1` answers the
request with a non-429 4xx client error, `test2` succeeds. -/
def c2outcome : Nat → String → UpstreamOutcome := fun _ dn =>
  if dn = "test1" then .raise .clientFault else .ok (some 30)

/-- C2 counterexample: a 4xx non-rate-limit upstream fault on `test1` is
**not** surfaced as-is — `test1`'s `cooldown_until` changes (the generic
`except Exception` branch calls `mark_down()`), and the failover loop
**does** retry: the second attempt is served by `test2`, whose completion
the caller receives. -/
theorem c2_client_fault_counterexample :
    (c6sb.create selTake2 0 "gpt-4o-mini" none
        [⟨some (.str "Hello, world!")⟩] c2outcome).2 = .ok ⟨some 30⟩ ∧
    (((c6sb.create selTake2 0 "gpt-4o-mini" none
        [⟨some (.str "Hello, world!")⟩] c2outcome).1.depByName
        "test2").map (fun d => d.model? "gpt-4o-mini"))
      = some (some miniServed) ∧
    ¬ ((((c6sb.create selTake2 0 "gpt-4o-mini" none
        [⟨some (.str "Hello, world!")⟩] c2outcome).1.depByName
        "test1").map (fun d => (d.model? "gpt-4o-mini").map
          Model.cooldown_until))
      = ((c6sb.depByName "test1").map (fun d =>
          (d.model? "gpt-4o-mini").map Model.cooldown_until))) := by
  refine ⟨?_, ?_, ?_⟩ <;> decide

/-- C2 as amended: every upstream failure other than `RateLimitError` —
4xx client faults included — makes `DeploymentState.create` mark the
model down (`cooldown_until := now + cooldown_period`) and raise a
`RuntimeError`, which, not being a `SwitchboardError`, the failover
policy retries with exactly one further attempt. -/
theorem c2_client_fault_amended (d : DeploymentState) (model : String)
    (msgs : List Message) (now : ℤ) (e : UpstreamExc) (m₀ : Model)
    (pf : Nat) (sb sb₁ : Switchboard)
    (sel : String → List DeploymentState → DeploymentState)
    (sid : Option String) (msgs₂ : List Message)
    (outcome : Nat → String → UpstreamOutcome) (msg : String)
    (hconf : d.model? model = some m₀)
    (hpf : estimate_token_usage msgs = .ok pf)
    (hne : e ≠ .rateLimitError)
    (hrt : sb.createOnce sel now model sid msgs₂ (outcome 1)
      = (sb₁, .error (.runtimeError msg))) :
    (d.create model msgs (.raise e) now).2
      = .error (.runtimeError "Error in deployment chat completion") ∧
    ((d.create model msgs (.raise e) now).1.model? model).map
        Model.cooldown_until
      = some (now + m₀.cooldown_period) ∧
    sb.create sel now model sid msgs₂ outcome
      = sb₁.createOnce sel now model sid msgs₂ (outcome 2) := by
  have hm1 : ((d.updateModel model
      (fun m => (m.spend_tokens (pf : ℤ)).spend_request)).updateModel
        model (fun m => m.mark_down now)).model? model
      = some (((m₀.spend_tokens (pf : ℤ)).spend_request).mark_down now) := by
    rw [model?_updateModel
      (d.updateModel model
        (fun m => (m.spend_tokens (pf : ℤ)).spend_request)) model
      (fun m => m.mark_down now) (fun _ => rfl)]
    rw [model?_updateModel d model
      (fun m => (m.spend_tokens (pf : ℤ)).spend_request) (fun _ => rfl)]
    rw [hconf]
    rfl
  refine ⟨?_, ?_, ?_⟩
  · cases e with
    | rateLimitError => exact absurd rfl hne
    | clientFault =>
      rw [DeploymentState.create, hconf, hpf]
      simp
    | transientFault =>
      rw [DeploymentState.create, hconf, hpf]
      simp
  · cases e with
    | rateLimitError => exact absurd rfl hne
    | clientFault =>
      rw [DeploymentState.create, hconf, hpf]
      show ((((d.updateModel model
          (fun m => (m.spend_tokens (pf : ℤ)).spend_request)).updateModel
            model (fun m => m.mark_down now)).model? model).map
          Model.cooldown_until)
        = some (now + m₀.cooldown_period)
      rw [hm1]
      rfl
    | transientFault =>
      rw [DeploymentState.create, hconf, hpf]
      show ((((d.updateModel model
          (fun m => (m.spend_tokens (pf : ℤ)).spend_request)).updateModel
            model (fun m => m.mark_down now)).model? model).map
          Model.cooldown_until)
        = some (now + m₀.cooldown_period)
      rw [hm1]
      rfl
  · rw [Switchboard.create, hrt]
    rfl

/-- Witness for the amended C2: `test1` answers with a 4xx client fault;
the first switchboard attempt returns the translated `RuntimeError`, and
`Switchboard.create` runs the second attempt. -/
theorem c2_client_fault_amended_witness :
    (depA.create "gpt-4o-mini" [⟨some (.str "Hello, world!")⟩]
        (.raise .clientFault) 0).2
      = .error (.runtimeError "Error in deployment chat completion") ∧
    ((depA.create "gpt-4o-mini" [⟨some (.str "Hello, world!")⟩]
        (.raise .clientFault) 0).1.model? "gpt-4o-mini").map
        Model.cooldown_until
      = some (0 + miniModel.cooldown_period) ∧
    c6sb.create selTake2 0 "gpt-4o-mini" none
        [⟨some (.str "Hello, world!")⟩] c2outcome
      = ((c6sb.createOnce selTake2 0 "gpt-4o-mini" none
          [⟨some (.str "Hello, world!")⟩] (c2outcome 1)).1).createOnce
          selTake2 0 "gpt-4o-mini" none
          [⟨some (.str "Hello, world!")⟩] (c2outcome 2) :=
  c2_client_fault_amended depA "gpt-4o-mini"
    [⟨some (.str "Hello, world!")⟩] 0 .clientFault miniModel 3 c6sb
    ((c6sb.createOnce selTake2 0 "gpt-4o-mini" none
      [⟨some (.str "Hello, world!")⟩] (c2outcome 1)).1)
    selTake2 none [⟨some (.str "Hello, world!")⟩] c2outcome
    "Error in deployment chat completion"
    (by decide) (by decide) (by decide) (by decide)

/-- C7 counterexample client: 200 tokens already spent against a TPM limit
of 100 (counters may exceed limits: nothing caps `ratelimit_tokens`),
cooldown expired. -/
def c7client : Client :=
  { tpm_ratelimit := 100, rpm_ratelimit := 0, cooldown_until := 0,
    ratelimit_tokens := 200, ratelimit_requests := 0 }

/-- C7 counterexample: on a healthy client whose spent tokens exceed the
TPM limit, `util` (at `now = 5`, `ε = 0`) returns `2`, refuting the
claim's "and this returned value lies in the interval [0, 1]". -/
theorem c7_util_counterexample :
    Client.util c7client 5 0 = 2 ∧ ¬ Client.util c7client 5 0 ≤ 1 := by
  have h : Client.util c7client 5 0 = 2 := by
    norm_num [Client.util, c7client, Client.token_util, Client.request_util,
      round3, round_eq]
  exact ⟨h, by rw [h]; norm_num⟩

/-- C7 as amended: while cooling down `util` returns exactly `1`; when
healthy it returns `max(token_util, request_util) + ε` rounded to three
decimals (Python `round(·, 3)`), a value that is nonnegative whenever the
token counter is, and at most `1.01` (not `1`) whenever each counter is
within its limit. -/
theorem c7_util_amended (c : Client) (now ε : ℚ)
    (hε0 : 0 ≤ ε) (hε1 : ε < 1 / 100) :
    (now < c.cooldown_until → c.util now ε = 1) ∧
    (c.cooldown_until ≤ now →
      c.util now ε = round3 (max c.token_util c.request_util + ε) ∧
      (0 ≤ c.ratelimit_tokens → 0 ≤ c.util now ε) ∧
      (c.ratelimit_tokens ≤ (c.tpm_ratelimit : ℤ) →
        c.ratelimit_requests ≤ c.rpm_ratelimit →
        c.util now ε ≤ 101 / 100)) := by
  constructor
  · intro h
    rw [Client.util, if_pos h]
  · intro h
    have hnot : ¬ now < c.cooldown_until := not_lt.mpr h
    rw [Client.util, if_neg hnot]
    have hreq : 0 ≤ c.request_util := by
      rw [Client.request_util]
      split
      · positivity
      · exact le_refl 0
    refine ⟨rfl, ?_, ?_⟩
    · intro htok
      have h1 : 0 ≤ c.token_util := by
        rw [Client.token_util]
        split
        · apply div_nonneg
          · exact_mod_cast htok
          · positivity
        · exact le_refl 0
      have hx : 0 ≤ (max c.token_util c.request_util + ε) * 1000 := by
        have := le_max_left c.token_util c.request_util
        nlinarith
      rw [round3, round_eq]
      have hfl : (0 : ℤ) ≤ ⌊(max c.token_util c.request_util + ε) * 1000
          + 1 / 2⌋ :=
        Int.floor_nonneg.mpr (by linarith)
      have : (0 : ℚ) ≤ (⌊(max c.token_util c.request_util + ε) * 1000
          + 1 / 2⌋ : ℚ) := by exact_mod_cast hfl
      linarith
    · intro ht hr
      have h1 : c.token_util ≤ 1 := by
        rw [Client.token_util]
        split
        · rename_i hlim
          rw [div_le_one (by exact_mod_cast hlim)]
          exact_mod_cast ht
        · norm_num
      have h2 : c.request_util ≤ 1 := by
        rw [Client.request_util]
        split
        · rename_i hlim
          rw [div_le_one (by exact_mod_cast hlim)]
          exact_mod_cast hr
        · norm_num
      have hm : max c.token_util c.request_util ≤ 1 := max_le h1 h2
      rw [round3, round_eq]
      have hfl : ⌊(max c.token_util c.request_util + ε) * 1000 + 1 / 2⌋
          < (1011 : ℤ) := by
        apply Int.floor_lt.mpr
        push_cast
        nlinarith
      have : ((⌊(max c.token_util c.request_util + ε) * 1000 + 1 / 2⌋ : ℤ) : ℚ)
          ≤ 1010 := by exact_mod_cast Int.lt_add_one_iff.mp hfl
      linarith

/-- The healthy client of the utilization test: 50% token usage, 50%
request usage. -/
def c7good : Client :=
  { tpm_ratelimit := 10000, rpm_ratelimit := 60, cooldown_until := 0,
    ratelimit_tokens := 5000, ratelimit_requests := 30 }

/-- Witness for the amended C7 at a concrete healthy client and
`ε = 1/200`. -/
theorem c7_util_amended_witness :
    ((5 : ℚ) < c7good.cooldown_until → c7good.util 5 (1 / 200) = 1) ∧
    (c7good.cooldown_until ≤ 5 →
      c7good.util 5 (1 / 200)
        = round3 (max c7good.token_util c7good.request_util + 1 / 200) ∧
      (0 ≤ c7good.ratelimit_tokens → 0 ≤ c7good.util 5 (1 / 200)) ∧
      (c7good.ratelimit_tokens ≤ (c7good.tpm_ratelimit : ℤ) →
        c7good.ratelimit_requests ≤ c7good.rpm_ratelimit →
        c7good.util 5 (1 / 200) ≤ 101 / 100)) :=
  c7_util_amended c7good 5 (1 / 200) (by norm_num) (by norm_num)

/-- Witness for C9: capacity 2, a workload of three inserts and a lookup;
plus the eviction equation on a concrete full map. -/
theorem c9_lru_bound_witness :
    (lruRun 2 [.put "a" "1", .put "b" "2", .get "a",
        .put "c" "3"]).length ≤ 2 ∧
    lruPut 2 [("b", "2"), ("a", "1")] "c" "3"
      = [("a", "1"), ("c", "3")] :=
  ⟨(c9_lru_bound 2 _).1,
   (c9_lru_bound 2 []).2 [("b", "2"), ("a", "1")] "c" "3"
     (by decide) (by decide) (by decide)⟩
